import Mathlib

set_option maxRecDepth 4000

/-!
Shallow embedding of the SimplePersonalMarketAnalyzer core
(backend/app/asset_manager.py, usage.py, asset_cache.py, providers.py).

Modelling conventions:
* Unix timestamps (Python floats from `time.time()`) are `Int` seconds.
* Python date-keys (`strftime "%Y-%m-%d"` of the local date) are modelled as
  the day ordinal `now / 86400` (Euclidean division; the divisor is positive, so this is floor division): two instants share a date-key iff they
  share the ordinal.
* JSON objects backing the ledger and the cache are association lists; a
  whole-file read-modify-write function becomes a pure function from the
  persisted state to the new persisted state.  A function whose Python body
  never calls the save helper returns its input state unchanged.
* Prices and volumes (float64) are rationals; the claims only use order,
  max/min, and sums, which floats of the magnitudes involved compute exactly.
* Adapter results `(data, err)` use `List RawRow` for `data`, with `[]`
  standing for both Python `None` and `[]` (the orchestrator only tests
  truthiness, and both are falsy).
-/

namespace SPMA

abbrev Time := Int

/-- One raw OHLCV row: the dict `{t, o, h, l, c, v}` produced by the provider
adapters and stored in cache entries. -/
structure RawRow where
  t : Int
  o : ℚ
  hi : ℚ
  lo : ℚ
  c : ℚ
  v : ℚ
deriving DecidableEq, Repr

/-- A cache entry as written by `fetch_stock_history` (asset_manager.py):
`{provider, source_symbol, fetched_at, expires_at, data}`. -/
structure CacheEntry where
  provider : String
  source_symbol : Option String
  fetched_at : Time
  expires_at : Time
  data : List RawRow
deriving DecidableEq, Repr

/-- Update-or-append for an association list: the Python `dict[k] = v` on a
JSON object, replacing the first binding of `k` in place. -/
def setA {α β : Type} [DecidableEq α] : List (α × β) → α → β → List (α × β)
  | [], k, v => [(k, v)]
  | (k0, v0) :: t, k, v =>
      if k0 = k then (k, v) :: t else (k0, v0) :: setA t k v

/-- The persisted asset cache (asset_cache.json): a JSON object mapping cache
keys to entries. -/
abbrev Cache := List (String × CacheEntry)

/-- `get_entry` (asset_cache.py): loads the persisted map and returns the
entry; it performs no save, so the persisted state comes back unchanged. -/
def get_entry (c : Cache) (key : String) : Option CacheEntry × Cache :=
  (c.lookup key, c)

/-- `set_entry` (asset_cache.py): load the whole map, set the key, persist
the whole map back. -/
def set_entry (c : Cache) (key : String) (e : CacheEntry) : Cache :=
  setA c key e

/-- The persisted usage ledger (usage.py): `{daily, minute, stats}`. -/
structure Usage where
  daily : List (String × List (Int × Nat))
  minute : List (String × List Time)
  requests : Nat
  cache_hits : Nat
  stooq_failures : Nat
deriving DecidableEq, Repr

/-- `ALPHA_DAILY_BUDGET` (config.py line 41). -/
def ALPHA_DAILY_BUDGET : Nat := 10

/-- `ALPHA_PER_MINUTE_BUDGET` (config.py line 42). -/
def ALPHA_PER_MINUTE_BUDGET : Nat := 5

/-- `_today_key` (usage.py): the local date string of `now`, modelled as the
day ordinal (injective on days, constant within a day). -/
def _today_key (now : Time) : Int := now / 86400

/-- `record_request` (usage.py): bump total-request and, on a hit, cache-hit
counters. -/
def record_request (u : Usage) (cache_hit : Bool) : Usage :=
  { u with requests := u.requests + 1,
           cache_hits := u.cache_hits + (if cache_hit then 1 else 0) }

/-- `record_stooq_failure` (usage.py). -/
def record_stooq_failure (u : Usage) : Usage :=
  { u with stooq_failures := u.stooq_failures + 1 }

/-- `record_provider_call` (usage.py): bump today's daily counter for the
provider and append `now` to its minute window, keeping only timestamps
within the trailing 60 seconds. -/
def record_provider_call (u : Usage) (provider : String) (now : Time) : Usage :=
  let day := _today_key now
  let dailyP := (u.daily.lookup provider).getD []
  let dailyP2 := setA dailyP day ((dailyP.lookup day).getD 0 + 1)
  let minuteP := (u.minute.lookup provider).getD []
  let minuteP2 := (minuteP ++ [now]).filter (fun ts => now - ts ≤ 60)
  { u with daily := setA u.daily provider dailyP2,
           minute := setA u.minute provider minuteP2 }

/-- `alpha_used_today` (usage.py): today's recorded Alpha Vantage call count. -/
def alpha_used_today (u : Usage) (now : Time) : Nat :=
  (((u.daily.lookup "alpha").getD []).lookup (_today_key now)).getD 0

/-- `alpha_calls_last_minute` (usage.py): loads the ledger and counts the
minute-window timestamps within the last 60 seconds.  The Python body calls
no save helper, so the persisted ledger is returned unchanged. -/
def alpha_calls_last_minute (u : Usage) (now : Time) : Nat × Usage :=
  ((((u.minute.lookup "alpha").getD []).filter (fun ts => now - ts ≤ 60)).length, u)

/-- `can_use_alpha` (usage.py): daily budget first, then the per-minute
window. -/
def can_use_alpha (u : Usage) (now : Time) : Bool :=
  if ALPHA_DAILY_BUDGET ≤ alpha_used_today u now then false
  else if ALPHA_PER_MINUTE_BUDGET ≤ (alpha_calls_last_minute u now).1 then false
  else true

/-- Python slice `l[i:]` for an `Int` index `i` (negative indices count from
the end; out-of-range starts clamp). -/
def pySliceFrom {α : Type} (l : List α) (i : Int) : List α :=
  if 0 ≤ i then l.drop i.toNat
  else l.drop (l.length - (-i).toNat)

/-- `_is_insufficient` (asset_manager.py lines 100-115). -/
def _is_insufficient (data : List RawRow) (interval : String) (chart_points : Int) : Bool :=
  if ¬ (interval = "1d" ∨ interval = "daily") then false
  else if 90 < chart_points then false
  else decide ((pySliceFrom data (- chart_points)).length < 25)

/-- Modelled from the spec and the Python runtime: CPython's built-in `hash`
on strings is salted by a per-process seed (PYTHONHASHSEED), which the
repository never pins.  The claims only concern determinism for a fixed
seed, the modulus bound, and the possibility of seed dependence, so the
siphash mixing is modelled as an additive salt over a byte fold. -/
def pyHash (seed : Int) (key : String) : Int :=
  seed + key.toList.foldl (fun a ch => a * 131 + Int.ofNat ch.toNat) 0

/-- `_jitter_minutes` (asset_manager.py lines 40-47): `abs(hash(key)) % 31`. -/
def _jitter_minutes (seed : Int) (key : String) : Nat :=
  (pyHash seed key).natAbs % 31

/-- `_next_day_at` (asset_manager.py lines 50-67): tomorrow at `hour:minute`
plus the per-key jitter.  `wallNow` is the `datetime.now()` reading; the
local-midnight calendar is modelled on day-ordinal boundaries. -/
def _next_day_at (seed : Int) (hour minute : Int) (key : String) (wallNow : Time) : Time :=
  let target := (wallNow / 86400 + 1) * 86400 + hour * 3600 + minute * 60
  target + (_jitter_minutes seed key : Int) * 60

/-- `_expiry_for_provider` (asset_manager.py lines 70-79). -/
def _expiry_for_provider (seed : Int) (provider : String) (key : String) (wallNow : Time) : Time :=
  if provider = "alpha" then _next_day_at seed 6 0 key wallNow
  else _next_day_at seed 1 0 key wallNow

/-- The transient metadata dict built by `fetch_stock_history`.  Branches
that omit a key are modelled by `none` in the corresponding field. -/
structure FetchMeta where
  provider : Option String
  source_symbol : Option String
  fetched_at : Option Time
  expires_at : Option Time
  is_stale : Bool
  cache_status : String
  stooq_error : Option String
  alpha_error : Option String
deriving DecidableEq, Repr

/-- The persistent world touched by one orchestration call: the asset cache
file and the usage ledger file. -/
structure World where
  cache : Cache
  usage : Usage
deriving DecidableEq, Repr

/-- One provider adapter outcome `(data, err)`; `data = []` covers both
Python `None` and an empty row list (the orchestrator only tests
truthiness). -/
structure AdapterResult where
  data : List RawRow
  err : Option String
deriving DecidableEq, Repr

/-- Result of one `fetch_stock_history` call: the row list handed to
`_to_dataframe` (the DataFrame conversion is a presentation-layer
sort/rename), the metadata dict, the new persisted world, and how many
times each provider adapter was invoked. -/
structure FetchOut where
  rows : Option (List RawRow)
  meta : FetchMeta
  world : World
  stooq_calls : Nat
  alpha_calls : Nat
deriving DecidableEq, Repr

/-- The guard `mode == "force" or not cached or cached.get("expires_at", 0) <= now`
shared by the Stooq tier and the Alpha tier (asset_manager.py lines 169, 204). -/
def tierGuard (cached : Option CacheEntry) (now : Time) (mode : String) : Bool :=
  mode = "force" ||
    match cached with
    | none => true
    | some c => c.expires_at ≤ now

/-- The `stooq_error` value after the two sequential diagnostic ifs
(asset_manager.py lines 196-201): the adapter error overwrites the
"insufficient" marker when both are set. -/
def stooqErrorOf (res : AdapterResult) (interval : String) (chart_points : Int) :
    Option String :=
  match res.err with
  | some e => some e
  | none =>
      if res.data ≠ [] ∧ _is_insufficient res.data interval chart_points then
        some "insufficient"
      else none

/-- `(stooq_symbol or "").lower() or None` (asset_manager.py line 179). -/
def stooqSourceSymbol (stooq_symbol : Option String) : Option String :=
  match stooq_symbol with
  | none => none
  | some s => if s = "" then none else some s.toLower

/-- The two sequential diagnostic bookkeeping ifs after a failed or
insufficient Stooq attempt (asset_manager.py lines 196-201): each fires
`record_stooq_failure` on its own. -/
def stooqFailureBook (u : Usage) (res : AdapterResult) (interval : String)
    (chart_points : Int) : Usage :=
  let ua :=
    if res.data ≠ [] ∧ _is_insufficient res.data interval chart_points then
      record_stooq_failure u
    else u
  if res.err.isSome then record_stooq_failure ua else ua

/-- The shared tail of `fetch_stock_history` (asset_manager.py lines
235-258): stale cache if any entry exists, otherwise total failure.
`u` is the ledger after the tier bookkeeping, `sc`/`ac` the adapter
invocation counts of the call. -/
def fetchTail (cached : Option CacheEntry) (stooq_symbol : Option String)
    (stooq_error : Option String) (cache : Cache) (u : Usage)
    (sc ac : Nat) : FetchOut :=
  match cached with
  | some c =>
      { rows := some c.data
        meta := { provider := some c.provider, source_symbol := c.source_symbol,
                  fetched_at := some c.fetched_at, expires_at := some c.expires_at,
                  is_stale := true, cache_status := "stale",
                  stooq_error := stooq_error, alpha_error := none }
        world := { cache := cache, usage := record_request u true }
        stooq_calls := sc, alpha_calls := ac }
  | none =>
      { rows := none
        meta := { provider := none, source_symbol := stooq_symbol,
                  fetched_at := none, expires_at := none,
                  is_stale := false, cache_status := "miss",
                  stooq_error := stooq_error, alpha_error := none }
        world := { cache := cache, usage := record_request u false }
        stooq_calls := sc, alpha_calls := ac }

/-- The provider tiers of `fetch_stock_history` (asset_manager.py lines
167-258), entered when the valid-cache fast path did not return.
`cached` is the entry loaded at the top of the call; `now` the timestamp
taken there.  `time.sleep` and `wait_for_alpha_slot` touch no persisted
state and are modelled as no-ops. -/
def fetchTiers (seed : Int) (symbol : String) (stooq_symbol : Option String)
    (interval : String) (chart_points : Int) (mode : String) (alpha_key : String)
    (stooqRes alphaRes : AdapterResult) (now : Time) (w : World)
    (cached : Option CacheEntry) : FetchOut :=
  let cache_key := "stock:" ++ symbol ++ ":daily"
  if tierGuard cached now mode ∧ stooqRes.data ≠ [] ∧
      ¬ _is_insufficient stooqRes.data interval chart_points then
    let expires_at := _expiry_for_provider seed "stooq" symbol now
    let src := stooqSourceSymbol stooq_symbol
    let e : CacheEntry :=
      { provider := "stooq", source_symbol := src, fetched_at := now,
        expires_at := expires_at, data := stooqRes.data }
    { rows := some stooqRes.data
      meta := { provider := some "stooq", source_symbol := src,
                fetched_at := some now, expires_at := some expires_at,
                is_stale := false, cache_status := "miss",
                stooq_error := none, alpha_error := none }
      world := { cache := set_entry w.cache cache_key e,
                 usage := record_request w.usage false }
      stooq_calls := 1, alpha_calls := 0 }
  else
    let sc := if tierGuard cached now mode then 1 else 0
    let stooq_error :=
      if tierGuard cached now mode then stooqErrorOf stooqRes interval chart_points
      else none
    let u1 :=
      if tierGuard cached now mode then
        stooqFailureBook w.usage stooqRes interval chart_points
      else w.usage
    if tierGuard cached now mode ∧ alpha_key ≠ "" ∧ can_use_alpha u1 now then
      let u2 := record_provider_call u1 "alpha" now
      if alphaRes.data ≠ [] then
        let expires_at := _expiry_for_provider seed "alpha" symbol now
        let e : CacheEntry :=
          { provider := "alpha", source_symbol := some symbol, fetched_at := now,
            expires_at := expires_at, data := alphaRes.data }
        { rows := some alphaRes.data
          meta := { provider := some "alpha", source_symbol := some symbol,
                    fetched_at := some now, expires_at := some expires_at,
                    is_stale := false, cache_status := "miss",
                    stooq_error := stooq_error, alpha_error := alphaRes.err }
          world := { cache := set_entry w.cache cache_key e,
                     usage := record_request u2 false }
          stooq_calls := sc, alpha_calls := 1 }
      else fetchTail cached stooq_symbol stooq_error w.cache u2 sc 1
    else fetchTail cached stooq_symbol stooq_error w.cache u1 sc 0

/-- `fetch_stock_history` (asset_manager.py lines 118-258) as a pure state
transformer.  `stooqRes`/`alphaRes` are the outcomes the two adapters would
return if invoked; `seed` is the process hash seed; `now` doubles as the
`time.time()` and `datetime.now()` readings of the call. -/
def fetch_stock_history (seed : Int) (symbol : String) (stooq_symbol : Option String)
    (interval : String) (chart_points : Int) (mode : String) (alpha_key : String)
    (stooqRes alphaRes : AdapterResult) (now : Time) (w : World) : FetchOut :=
  let cache_key := "stock:" ++ symbol ++ ":daily"
  let cached := (get_entry w.cache cache_key).1
  match cached with
  | some c =>
      if now < c.expires_at ∧ mode ≠ "force" then
        { rows := some c.data
          meta := { provider := some c.provider, source_symbol := c.source_symbol,
                    fetched_at := some c.fetched_at, expires_at := some c.expires_at,
                    is_stale := false, cache_status := "hit",
                    stooq_error := none, alpha_error := none }
          world := { w with usage := record_request w.usage true }
          stooq_calls := 0, alpha_calls := 0 }
      else
        fetchTiers seed symbol stooq_symbol interval chart_points mode alpha_key
          stooqRes alphaRes now w (some c)
  | none =>
      fetchTiers seed symbol stooq_symbol interval chart_points mode alpha_key
        stooqRes alphaRes now w none

/-- Iterate `fetch_stock_history` with fixed arguments, threading the world:
returns the list of `cache_status` values and the total adapter invocation
counts. -/
def fetchN (seed : Int) (symbol : String) (stooq_symbol : Option String)
    (interval : String) (chart_points : Int) (mode : String) (alpha_key : String)
    (stooqRes alphaRes : AdapterResult) (now : Time) (w : World) :
    Nat → List String × World × Nat × Nat
  | 0 => ([], w, 0, 0)
  | n + 1 =>
      let o := fetch_stock_history seed symbol stooq_symbol interval chart_points
        mode alpha_key stooqRes alphaRes now w
      let r := fetchN seed symbol stooq_symbol interval chart_points mode alpha_key
        stooqRes alphaRes now o.world n
      (o.meta.cache_status :: r.1, r.2.1, o.stooq_calls + r.2.2.1, o.alpha_calls + r.2.2.2)

/-- One row of the DataFrame produced by `_to_dataframe`: a dated OHLCV bar.
`t` is the day ordinal of the datetime index entry. -/
structure Bar where
  t : Int
  op : ℚ
  high : ℚ
  low : ℚ
  close : ℚ
  volume : ℚ
deriving DecidableEq, Repr

/-- Day ordinal of the Friday on or after day `n` (pandas rule `W-FRI`
assigns each timestamp to its week-ending Friday).  Day 0 = 1970-01-01,
a Thursday, so day `n` is a Friday iff `n ≡ 1 [mod 7]`. -/
def weekFriday (n : Int) : Int := n + (1 - n) % 7

/-- Civil (proleptic Gregorian) date to day ordinal, Hinnant's algorithm. -/
def days_from_civil (y m d : Int) : Int :=
  let y2 := if m ≤ 2 then y - 1 else y
  let era := y2 / 400
  let yoe := y2 - era * 400
  let mp := (m + 9) % 12
  let doy := (153 * mp + 2) / 5 + d - 1
  let doe := yoe * 365 + yoe / 4 - yoe / 100 + doy
  era * 146097 + doe - 719468

/-- Day ordinal to civil date `(y, m, d)`, Hinnant's algorithm. -/
def civil_from_days (z : Int) : Int × Int × Int :=
  let z2 := z + 719468
  let era := z2 / 146097
  let doe := z2 - era * 146097
  let yoe := (doe - doe / 1460 + doe / 36524 - doe / 146096) / 365
  let y := yoe + era * 400
  let doy := doe - (365 * yoe + yoe / 4 - yoe / 100)
  let mp := (5 * doy + 2) / 153
  let d := doy - (153 * mp + 2) / 5 + 1
  let m := mp + (if mp < 10 then 3 else -9)
  (if m ≤ 2 then y + 1 else y, m, d)

/-- Day ordinal of the last day of the month containing day `z` (pandas
rule `M` labels each bucket with the calendar month end). -/
def monthEnd (z : Int) : Int :=
  let c := civil_from_days z
  (if c.2.1 = 12 then days_from_civil (c.1 + 1) 1 1
   else days_from_civil c.1 (c.2.1 + 1) 1) - 1

/-- Successor of a weekly bucket label: the next Friday. -/
def weekStep (k : Int) : Int := k + 7

/-- Successor of a monthly bucket label: the next month end. -/
def monthStep (k : Int) : Int := monthEnd (k + 1)

/-- Aggregate one resample bucket labelled `k` from the rows falling in it:
open = first, high = max, low = min, close = last, volume = sum.  An empty
bucket yields NaN aggregates and is dropped by `dropna(subset=["close"])`,
modelled as `none`. -/
def aggBucket (k : Int) (grp : List Bar) : Option Bar :=
  match grp with
  | [] => none
  | b :: bs =>
      some { t := k,
             op := b.op,
             high := (bs.map Bar.high).foldl max b.high,
             low := (bs.map Bar.low).foldl min b.low,
             close := ((b :: bs).getLastD b).close,
             volume := (b :: bs).foldl (fun a x => a + x.volume) 0 }

/-- The bucket labels pandas generates for the resample: starting at the
label of the first index entry, stepping to successive labels while not
past the label of the last entry.  `fuel` bounds the recursion. -/
def keyList (step : Int → Int) : Nat → Int → Int → List Int
  | 0, _, _ => []
  | n + 1, k, kmax => if k ≤ kmax then k :: keyList step n (step k) kmax else []

/-- `df.resample(rule).agg({first, max, min, last, sum}).dropna(subset=["close"])`
for a label function and label successor: pandas materialises every bucket
label spanning the (sorted) index, aggregates the rows falling in each, and
drops the all-NaN (empty) buckets. -/
def resampleRule (key step : Int → Int) (rows : List Bar) : List Bar :=
  match rows with
  | [] => []
  | r :: _ =>
      let k0 := key r.t
      let k1 := key ((rows.getLastD r).t)
      let fuel := (k1 - k0).toNat + 1
      (keyList step fuel k0 k1).filterMap
        (fun k => aggBucket k (rows.filter (fun b => key b.t = k)))

/-- `resample_history` (providers.py lines 471-529) on the full-column
daily frame the orchestrator produces (the open/high/low/volume backfill
branches are for degenerate single-field frames and do not fire). -/
def resample_history (rows : List Bar) (interval : String) : List Bar :=
  if interval = "1d" ∨ interval = "daily" then rows
  else if interval = "1w" ∨ interval = "weekly" then resampleRule weekFriday weekStep rows
  else if interval = "1m" ∨ interval = "monthly" then resampleRule monthEnd monthStep rows
  else rows

/-- Collapse consecutive duplicates; on a sorted list this yields the sorted
distinct values. -/
def dedupKeys : List Int → List Int
  | [] => []
  | [x] => [x]
  | x :: y :: t => if x = y then dedupKeys (y :: t) else x :: dedupKeys (y :: t)

/-- Weekly resampling as the spec words it (for the refinement comparison):
bucket the rows by their week-ending Friday, aggregate each nonempty bucket
as first/max/min/last/sum, one output bar per distinct week in order. -/
def weeklyGroupsSpec (rows : List Bar) : List Bar :=
  (dedupKeys (rows.map (fun b => weekFriday b.t))).filterMap
    (fun k => aggBucket k (rows.filter (fun b => weekFriday b.t = k)))

/-- Ten consecutive trading days (Mon-Fri of 1970-01-05..09 and
1970-01-12..16 as day ordinals) spanning two Friday-ended weeks. -/
def exWeek10 : List Bar :=
  [⟨4, 10, 20, 5, 15, 100⟩, ⟨5, 11, 25, 6, 16, 100⟩, ⟨6, 12, 22, 3, 17, 100⟩,
   ⟨7, 13, 21, 7, 18, 100⟩, ⟨8, 14, 23, 4, 19, 100⟩,
   ⟨11, 30, 40, 28, 35, 200⟩, ⟨12, 31, 45, 26, 36, 200⟩, ⟨13, 32, 42, 23, 37, 200⟩,
   ⟨14, 33, 41, 27, 38, 200⟩, ⟨15, 34, 43, 24, 39, 200⟩]

theorem lookup_setA {α β : Type} [DecidableEq α] [BEq α] [LawfulBEq α]
    (l : List (α × β)) (k k2 : α) (v : β) :
    (setA l k v).lookup k2 = if k2 = k then some v else l.lookup k2 := by
  induction l with
  | nil =>
      by_cases h : k2 = k
      · subst h; simp [setA, List.lookup]
      · have hb : (k2 == k) = false := by simp [h]
        simp [setA, List.lookup, h, hb]
  | cons p t ih =>
      obtain ⟨k0, v0⟩ := p
      by_cases h0 : k0 = k
      · subst h0
        by_cases h : k2 = k0
        · subst h; simp [setA, List.lookup]
        · have hb : (k2 == k0) = false := by simp [h]
          simp [setA, List.lookup, h, hb]
      · by_cases h2 : k2 = k0
        · subst h2
          have hne : ¬ k2 = k := fun hh => h0 hh
          simp [setA, h0, List.lookup, hne]
        · have hb : (k2 == k0) = false := by simp [h2]
          by_cases h : k2 = k
          · subst h
            simp [setA, h0, List.lookup, hb, ih]
          · simp [setA, h0, List.lookup, hb, ih, h]

/-- C10: the cache store satisfies the put/get round-trip and frame law:
after `set_entry k e`, `get_entry k` returns `e`; `get_entry k'` for
`k' ≠ k` is unchanged; and `get_entry` leaves the store state as it was. -/
theorem cache_roundtrip_frame (c : Cache) (k k2 : String) (e : CacheEntry) :
    (get_entry (set_entry c k e) k).1 = some e ∧
    (k2 ≠ k → (get_entry (set_entry c k e) k2).1 = (get_entry c k2).1) ∧
    (get_entry c k).2 = c := by
  refine ⟨?_, ?_, rfl⟩
  · simp [get_entry, set_entry, lookup_setA]
  · intro h
    simp [get_entry, set_entry, lookup_setA, h]

/-- C10 witness at a concrete store. -/
theorem cache_roundtrip_frame_witness :
    (get_entry (set_entry [("stock:MSFT:daily", ⟨"alpha", none, 0, 5, []⟩)]
        "stock:AAPL:daily" ⟨"stooq", none, 1, 9, []⟩) "stock:MSFT:daily").1 =
      some ⟨"alpha", none, 0, 5, []⟩ :=
  ((cache_roundtrip_frame [("stock:MSFT:daily", ⟨"alpha", none, 0, 5, []⟩)]
      "stock:AAPL:daily" "stock:MSFT:daily" ⟨"stooq", none, 1, 9, []⟩).2.1 (by decide)).trans
    (by decide)

/-- C1: fetched primary data is judged insufficient iff the interval is
day-granularity, the requested point count is at most 90, and the tail
slice `data[-chart_points:]` has fewer than 25 entries; at 60 display
points the boundary sits between 24 rows (insufficient, so the orchestrator
records a failure and falls back) and 25 rows (sufficient, cached as a
miss). -/
theorem insufficiency_boundary :
    (∀ (data : List RawRow) (interval : String) (chart_points : Int),
       _is_insufficient data interval chart_points = true ↔
         ((interval = "1d" ∨ interval = "daily") ∧ chart_points ≤ 90 ∧
          (pySliceFrom data (- chart_points)).length < 25)) ∧
    (∀ data : List RawRow, data.length = 24 → _is_insufficient data "1d" 60 = true) ∧
    (∀ data : List RawRow, data.length = 25 → _is_insufficient data "1d" 60 = false) ∧
    (∀ (seed : Int) (symbol : String) (ss : Option String) (cp : Int)
       (d : List RawRow) (e : Option String) (aRes : AdapterResult)
       (now : Time) (u : Usage),
       d ≠ [] →
       (_is_insufficient d "1d" cp = false →
          (fetch_stock_history seed symbol ss "1d" cp "daily" "" ⟨d, e⟩ aRes now
            ⟨[], u⟩).meta.cache_status = "miss" ∧
          (fetch_stock_history seed symbol ss "1d" cp "daily" "" ⟨d, e⟩ aRes now
            ⟨[], u⟩).rows = some d) ∧
       (_is_insufficient d "1d" cp = true →
          (fetch_stock_history seed symbol ss "1d" cp "daily" "" ⟨d, e⟩ aRes now
            ⟨[], u⟩).rows = none ∧
          (fetch_stock_history seed symbol ss "1d" cp "daily" "" ⟨d, e⟩ aRes now
            ⟨[], u⟩).world.cache = [] ∧
          u.stooq_failures <
            (fetch_stock_history seed symbol ss "1d" cp "daily" "" ⟨d, e⟩ aRes now
              ⟨[], u⟩).world.usage.stooq_failures)) := by
  refine ⟨?_, ?_, ?_, ?_⟩
  · intro data interval chart_points
    by_cases h1 : interval = "1d" ∨ interval = "daily" <;>
      by_cases h2 : (90 : Int) < chart_points <;>
        simp [_is_insufficient, h1, h2] <;> omega
  · intro data h
    have : ¬ (0 : Int) ≤ -60 := by omega
    simp [_is_insufficient, pySliceFrom, this, h]
  · intro data h
    have : ¬ (0 : Int) ≤ -60 := by omega
    simp [_is_insufficient, pySliceFrom, this, h]
  · intro seed symbol ss cp d e aRes now u hd
    constructor
    · intro hins
      simp [fetch_stock_history, get_entry, fetchTiers, tierGuard, hd, hins]
    · intro hins
      simp [fetch_stock_history, get_entry, fetchTiers, tierGuard, hd, hins,
        fetchTail, stooqErrorOf, record_stooq_failure, record_request]
      cases e <;> simp [stooqFailureBook, record_stooq_failure, hins, hd] <;> omega

/-- C1 witness: at 60 display points a 24-row tail is insufficient and the
fetch falls back to total failure with a recorded Stooq failure. -/
theorem insufficiency_boundary_witness :
    _is_insufficient (List.replicate 24 ⟨0, 1, 1, 1, 1, 1⟩) "1d" 60 = true ∧
    (fetch_stock_history 0 "AAPL" none "1d" 60 "daily" ""
      ⟨List.replicate 24 ⟨0, 1, 1, 1, 1, 1⟩, none⟩ ⟨[], none⟩ 500
      ⟨[], ⟨[], [], 0, 0, 0⟩⟩).rows = none := by
  constructor
  · exact insufficiency_boundary.2.1 (List.replicate 24 ⟨0, 1, 1, 1, 1, 1⟩) (by decide)
  · exact ((insufficiency_boundary.2.2.2 0 "AAPL" none 60
      (List.replicate 24 ⟨0, 1, 1, 1, 1, 1⟩) none ⟨[], none⟩ 500 ⟨[], [], 0, 0, 0⟩
      (by decide)).2 (by decide)).1

/-- C2: once today's recorded Alpha call count has reached the daily budget,
`can_use_alpha` is false at every instant sharing the date-key, whatever the
minute window holds; below the daily budget it is true iff the trailing
60-second window holds strictly fewer than the per-minute budget; and
`record_provider_call` is what advances the daily counter. -/
theorem alpha_budget_enforcement :
    (∀ (u : Usage) (now now2 : Time),
       _today_key now2 = _today_key now →
       ALPHA_DAILY_BUDGET ≤ alpha_used_today u now →
       can_use_alpha u now2 = false) ∧
    (∀ (u : Usage) (now : Time),
       alpha_used_today u now < ALPHA_DAILY_BUDGET →
       (can_use_alpha u now = true ↔
          (alpha_calls_last_minute u now).1 < ALPHA_PER_MINUTE_BUDGET)) ∧
    (∀ (u : Usage) (now : Time),
       alpha_used_today (record_provider_call u "alpha" now) now =
         alpha_used_today u now + 1) := by
  refine ⟨?_, ?_, ?_⟩
  · intro u now now2 hday hbud
    have he : alpha_used_today u now2 = alpha_used_today u now := by
      simp [alpha_used_today, hday]
    simp [can_use_alpha, he, hbud]
  · intro u now hbud
    have hb : ¬ ALPHA_DAILY_BUDGET ≤ alpha_used_today u now := by omega
    by_cases hm : ALPHA_PER_MINUTE_BUDGET ≤ (alpha_calls_last_minute u now).1 <;>
      simp [can_use_alpha, hb, hm] <;> omega
  · intro u now
    simp [alpha_used_today, record_provider_call, lookup_setA]

/-- C2 witness: a ledger with 10 recorded calls today blocks Alpha later the
same day even with an empty minute window; with 9 calls and a clear window
it allows it; recording bumps the counter. -/
theorem alpha_budget_enforcement_witness :
    can_use_alpha ⟨[("alpha", [(0, 10)])], [], 0, 0, 0⟩ 50000 = false ∧
    can_use_alpha ⟨[("alpha", [(0, 9)])], [], 0, 0, 0⟩ 50000 = true ∧
    alpha_used_today
      (record_provider_call ⟨[("alpha", [(0, 9)])], [], 0, 0, 0⟩ "alpha" 50000) 50000 = 10 := by
  refine ⟨?_, ?_, ?_⟩
  · exact alpha_budget_enforcement.1 ⟨[("alpha", [(0, 10)])], [], 0, 0, 0⟩ 50000 50000
      rfl (by decide)
  · exact (alpha_budget_enforcement.2.1 ⟨[("alpha", [(0, 9)])], [], 0, 0, 0⟩ 50000
      (by decide)).mpr (by decide)
  · exact (alpha_budget_enforcement.2.2 ⟨[("alpha", [(0, 9)])], [], 0, 0, 0⟩ 50000).trans
      (by decide)

/-- C7 counterexample: the jitter is computed from Python's built-in string
hash, which is salted per process; two processes with different hash seeds
can disagree on the jitter for the same cache key. -/
theorem jitter_cross_process_counterexample :
    _jitter_minutes 0 "AAPL" ≠ _jitter_minutes 1 "AAPL" := by decide

/-- C7 (amended): for a fixed process hash seed the jitter is a pure
function of the cache key, bounded by 0-30 minutes, and the full expiry
computation is identical for any two wall-clock instants on the same day;
across processes the salted string hash may change it. -/
theorem jitter_deterministic_bounded :
    (∀ (seed : Int) (key : String), _jitter_minutes seed key ≤ 30) ∧
    (∀ (seed hr mi : Int) (key : String) (t t2 : Time),
       t / 86400 = t2 / 86400 →
       _next_day_at seed hr mi key t = _next_day_at seed hr mi key t2) := by
  constructor
  · intro seed key
    have := Nat.mod_lt (pyHash seed key).natAbs (by omega : 0 < 31)
    simpa [_jitter_minutes] using Nat.lt_succ_iff.mp this
  · intro seed hr mi key t t2 h
    simp [_next_day_at, h]

/-- C7 witness: the same-day stability applied at two concrete instants of
one day. -/
theorem jitter_deterministic_bounded_witness :
    _next_day_at 0 1 0 "AAPL" 100 = _next_day_at 0 1 0 "AAPL" 86000 :=
  jitter_deterministic_bounded.2 0 1 0 "AAPL" 100 86000 (by decide)

/-- C8 counterexample: reading the minute window performs no save, so a
stale timestamp (100 seconds old) survives the read in the persisted
ledger. -/
theorem minute_read_prune_counterexample :
    (((alpha_calls_last_minute ⟨[], [("alpha", [0])], 0, 0, 0⟩ 100).2.minute.lookup
        "alpha").getD []) = [0] ∧ (100 : Int) - 0 > 60 := by decide

/-- C8 (amended): reading the minute window returns the count of recorded
timestamps within the trailing 60 seconds and leaves the persisted ledger
unchanged; pruning happens when `record_provider_call` appends, after which
the persisted window holds no timestamp older than 60 seconds. -/
theorem minute_window_read_and_prune :
    (∀ (u : Usage) (now : Time),
       (alpha_calls_last_minute u now).1 =
         (((u.minute.lookup "alpha").getD []).filter
            (fun ts => now - ts ≤ 60)).length ∧
       (alpha_calls_last_minute u now).2 = u) ∧
    (∀ (u : Usage) (p : String) (now ts : Time),
       ts ∈ (((record_provider_call u p now).minute.lookup p).getD []) →
       now - ts ≤ 60) := by
  constructor
  · intro u now; exact ⟨rfl, rfl⟩
  · intro u p now ts hmem
    simp [record_provider_call, lookup_setA] at hmem
    rcases hmem with hmem | hmem
    · linarith [hmem.2]
    · subst hmem; norm_num

/-- C8 witness: after recording a call at t=100 on a window holding a stale
t=0 entry, every persisted timestamp is within 60 seconds of t=100. -/
theorem minute_window_read_and_prune_witness :
    ((record_provider_call ⟨[], [("alpha", [0])], 0, 0, 0⟩ "alpha" 100).minute.lookup
        "alpha").getD [] = [100] ∧ (100 : Int) - 100 ≤ 60 := by
  refine ⟨by decide, ?_⟩
  exact minute_window_read_and_prune.2 ⟨[], [("alpha", [0])], 0, 0, 0⟩ "alpha" 100 100
    (by decide)

/-- C3: with an unexpired entry and any mode other than "force", the fetch
returns the cached rows as a non-stale hit, records a cache-hit outcome,
leaves the cache untouched and invokes neither adapter; N repeated calls
yield N hits and no adapter invocations, and a call that populates the
cache from the primary adapter costs exactly one primary invocation, after
which N repeats are all hits with no further invocations. -/
theorem cache_hit_idempotent :
    (∀ (seed : Int) (symbol : String) (ss : Option String) (interval : String)
       (cp : Int) (mode alpha_key : String) (sRes aRes : AdapterResult)
       (now : Time) (w : World) (c : CacheEntry),
       w.cache.lookup ("stock:" ++ symbol ++ ":daily") = some c →
       now < c.expires_at →
       mode ≠ "force" →
       fetch_stock_history seed symbol ss interval cp mode alpha_key sRes aRes now w =
         ⟨some c.data,
          ⟨some c.provider, c.source_symbol, some c.fetched_at, some c.expires_at,
           false, "hit", none, none⟩,
          ⟨w.cache, record_request w.usage true⟩, 0, 0⟩) ∧
    (∀ (seed : Int) (symbol : String) (ss : Option String) (interval : String)
       (cp : Int) (mode alpha_key : String) (sRes aRes : AdapterResult)
       (now : Time) (w : World) (c : CacheEntry) (n : Nat),
       w.cache.lookup ("stock:" ++ symbol ++ ":daily") = some c →
       now < c.expires_at →
       mode ≠ "force" →
       (fetchN seed symbol ss interval cp mode alpha_key sRes aRes now w n).1 =
           List.replicate n "hit" ∧
       (fetchN seed symbol ss interval cp mode alpha_key sRes aRes now w n).2.1.cache =
           w.cache ∧
       (fetchN seed symbol ss interval cp mode alpha_key sRes aRes now w n).2.2.1 = 0 ∧
       (fetchN seed symbol ss interval cp mode alpha_key sRes aRes now w n).2.2.2 = 0) ∧
    (∀ (seed : Int) (symbol : String) (ss : Option String) (interval : String)
       (cp : Int) (mode alpha_key : String) (sRes aRes : AdapterResult)
       (now now2 : Time) (w : World) (n : Nat),
       w.cache.lookup ("stock:" ++ symbol ++ ":daily") = none →
       sRes.data ≠ [] →
       _is_insufficient sRes.data interval cp = false →
       mode ≠ "force" →
       now2 < _expiry_for_provider seed "stooq" symbol now →
       (fetch_stock_history seed symbol ss interval cp mode alpha_key sRes aRes
           now w).stooq_calls = 1 ∧
       (fetch_stock_history seed symbol ss interval cp mode alpha_key sRes aRes
           now w).meta.cache_status = "miss" ∧
       (fetchN seed symbol ss interval cp mode alpha_key sRes aRes now2
           (fetch_stock_history seed symbol ss interval cp mode alpha_key sRes aRes
             now w).world n).1 = List.replicate n "hit" ∧
       (fetchN seed symbol ss interval cp mode alpha_key sRes aRes now2
           (fetch_stock_history seed symbol ss interval cp mode alpha_key sRes aRes
             now w).world n).2.2.1 = 0) := by
  have hit : ∀ (seed : Int) (symbol : String) (ss : Option String) (interval : String)
      (cp : Int) (mode alpha_key : String) (sRes aRes : AdapterResult)
      (now : Time) (w : World) (c : CacheEntry),
      w.cache.lookup ("stock:" ++ symbol ++ ":daily") = some c →
      now < c.expires_at →
      mode ≠ "force" →
      fetch_stock_history seed symbol ss interval cp mode alpha_key sRes aRes now w =
        ⟨some c.data,
         ⟨some c.provider, c.source_symbol, some c.fetched_at, some c.expires_at,
          false, "hit", none, none⟩,
         ⟨w.cache, record_request w.usage true⟩, 0, 0⟩ := by
    intro seed symbol ss interval cp mode alpha_key sRes aRes now w c hc hlt hmode
    simp [fetch_stock_history, get_entry, hc, hlt, hmode]
  have iter : ∀ (seed : Int) (symbol : String) (ss : Option String) (interval : String)
      (cp : Int) (mode alpha_key : String) (sRes aRes : AdapterResult)
      (now : Time) (n : Nat) (w : World) (c : CacheEntry),
      w.cache.lookup ("stock:" ++ symbol ++ ":daily") = some c →
      now < c.expires_at →
      mode ≠ "force" →
      (fetchN seed symbol ss interval cp mode alpha_key sRes aRes now w n).1 =
          List.replicate n "hit" ∧
      (fetchN seed symbol ss interval cp mode alpha_key sRes aRes now w n).2.1.cache =
          w.cache ∧
      (fetchN seed symbol ss interval cp mode alpha_key sRes aRes now w n).2.2.1 = 0 ∧
      (fetchN seed symbol ss interval cp mode alpha_key sRes aRes now w n).2.2.2 = 0 := by
    intro seed symbol ss interval cp mode alpha_key sRes aRes now n
    induction n with
    | zero => intro w c hc hlt hmode; simp [fetchN]
    | succ m ih =>
        intro w c hc hlt hmode
        have h1 := hit seed symbol ss interval cp mode alpha_key sRes aRes now w c
          hc hlt hmode
        have ih2 := ih ⟨w.cache, record_request w.usage true⟩ c hc hlt hmode
        simp [fetchN, h1, List.replicate_succ]
        exact ⟨ih2.1, ih2.2.1, ih2.2.2.1, ih2.2.2.2⟩
  refine ⟨hit, ?_, ?_⟩
  · intro seed symbol ss interval cp mode alpha_key sRes aRes now w c n hc hlt hmode
    exact iter seed symbol ss interval cp mode alpha_key sRes aRes now n w c hc hlt hmode
  · intro seed symbol ss interval cp mode alpha_key sRes aRes now now2 w n hc hd hins hmode hlt
    have hpop : fetch_stock_history seed symbol ss interval cp mode alpha_key sRes aRes
        now w =
        ⟨some sRes.data,
         ⟨some "stooq", stooqSourceSymbol ss, some now,
          some (_expiry_for_provider seed "stooq" symbol now), false, "miss", none, none⟩,
         ⟨set_entry w.cache ("stock:" ++ symbol ++ ":daily")
            ⟨"stooq", stooqSourceSymbol ss, now,
             _expiry_for_provider seed "stooq" symbol now, sRes.data⟩,
          record_request w.usage false⟩, 1, 0⟩ := by
      simp [fetch_stock_history, get_entry, hc, fetchTiers, tierGuard, hd, hins]
    have hlook : (set_entry w.cache ("stock:" ++ symbol ++ ":daily")
        ⟨"stooq", stooqSourceSymbol ss, now,
         _expiry_for_provider seed "stooq" symbol now, sRes.data⟩).lookup
          ("stock:" ++ symbol ++ ":daily") =
        some ⟨"stooq", stooqSourceSymbol ss, now,
          _expiry_for_provider seed "stooq" symbol now, sRes.data⟩ := by
      simp [set_entry, lookup_setA]
    have hiter := iter seed symbol ss interval cp mode alpha_key sRes aRes now2 n
      ⟨set_entry w.cache ("stock:" ++ symbol ++ ":daily")
         ⟨"stooq", stooqSourceSymbol ss, now,
          _expiry_for_provider seed "stooq" symbol now, sRes.data⟩,
       record_request w.usage false⟩
      ⟨"stooq", stooqSourceSymbol ss, now,
       _expiry_for_provider seed "stooq" symbol now, sRes.data⟩
      hlook hlt hmode
    refine ⟨by simp [hpop], by simp [hpop], ?_, ?_⟩
    · rw [hpop]; exact hiter.1
    · rw [hpop]; exact hiter.2.2.1

/-- C3 witness: a concrete unexpired entry is served as a hit, three
repeated calls give three hits with zero adapter invocations, and a
populating call plus three repeats cost exactly one primary invocation. -/
theorem cache_hit_idempotent_witness :
    (fetch_stock_history 0 "AAPL" (some "aapl.us") "1d" 60 "daily" "demo"
        ⟨[⟨1, 1, 1, 1, 1, 1⟩], none⟩ ⟨[], none⟩ 500
        ⟨[("stock:AAPL:daily", ⟨"stooq", some "aapl.us", 100, 1000, [⟨1, 1, 1, 1, 1, 1⟩]⟩)],
         ⟨[], [], 0, 0, 0⟩⟩).meta.cache_status = "hit" ∧
    (fetchN 0 "AAPL" (some "aapl.us") "1d" 60 "daily" "demo"
        ⟨[⟨1, 1, 1, 1, 1, 1⟩], none⟩ ⟨[], none⟩ 500
        ⟨[("stock:AAPL:daily", ⟨"stooq", some "aapl.us", 100, 1000, [⟨1, 1, 1, 1, 1, 1⟩]⟩)],
         ⟨[], [], 0, 0, 0⟩⟩ 3).1 = ["hit", "hit", "hit"] ∧
    (fetchN 0 "AAPL" (some "aapl.us") "1d" 60 "daily" "demo"
        ⟨List.replicate 30 ⟨1, 1, 1, 1, 1, 1⟩, none⟩ ⟨[], none⟩ 500
        (fetch_stock_history 0 "AAPL" (some "aapl.us") "1d" 60 "daily" "demo"
          ⟨List.replicate 30 ⟨1, 1, 1, 1, 1, 1⟩, none⟩ ⟨[], none⟩ 500
          ⟨[], ⟨[], [], 0, 0, 0⟩⟩).world 3).1 = ["hit", "hit", "hit"] := by
  refine ⟨?_, ?_, ?_⟩
  · rw [cache_hit_idempotent.1 0 "AAPL" (some "aapl.us") "1d" 60 "daily" "demo"
      ⟨[⟨1, 1, 1, 1, 1, 1⟩], none⟩ ⟨[], none⟩ 500
      ⟨[("stock:AAPL:daily", ⟨"stooq", some "aapl.us", 100, 1000, [⟨1, 1, 1, 1, 1, 1⟩]⟩)],
       ⟨[], [], 0, 0, 0⟩⟩ ⟨"stooq", some "aapl.us", 100, 1000, [⟨1, 1, 1, 1, 1, 1⟩]⟩
      (by decide) (by decide) (by decide)]
  · exact ((cache_hit_idempotent.2.1 0 "AAPL" (some "aapl.us") "1d" 60 "daily" "demo"
      ⟨[⟨1, 1, 1, 1, 1, 1⟩], none⟩ ⟨[], none⟩ 500
      ⟨[("stock:AAPL:daily", ⟨"stooq", some "aapl.us", 100, 1000, [⟨1, 1, 1, 1, 1, 1⟩]⟩)],
       ⟨[], [], 0, 0, 0⟩⟩ ⟨"stooq", some "aapl.us", 100, 1000, [⟨1, 1, 1, 1, 1, 1⟩]⟩ 3
      (by decide) (by decide) (by decide)).1).trans (by decide)
  · exact ((cache_hit_idempotent.2.2 0 "AAPL" (some "aapl.us") "1d" 60 "daily" "demo"
      ⟨List.replicate 30 ⟨1, 1, 1, 1, 1, 1⟩, none⟩ ⟨[], none⟩ 500 500
      ⟨[], ⟨[], [], 0, 0, 0⟩⟩ 3 (by decide) (by decide) (by decide) (by decide)
      (by decide)).2.2.1).trans (by decide)

theorem can_use_alpha_stooqFailureBook (u : Usage) (res : AdapterResult)
    (interval : String) (cp : Int) (now : Time) :
    can_use_alpha (stooqFailureBook u res interval cp) now = can_use_alpha u now := by
  unfold stooqFailureBook
  split <;> split <;> rfl

theorem requests_stooqFailureBook (u : Usage) (res : AdapterResult)
    (interval : String) (cp : Int) :
    (stooqFailureBook u res interval cp).requests = u.requests := by
  unfold stooqFailureBook
  split <;> split <;> rfl

theorem cache_hits_stooqFailureBook (u : Usage) (res : AdapterResult)
    (interval : String) (cp : Int) :
    (stooqFailureBook u res interval cp).cache_hits = u.cache_hits := by
  unfold stooqFailureBook
  split <;> split <;> rfl

theorem requests_record_provider_call (u : Usage) (p : String) (t : Time) :
    (record_provider_call u p t).requests = u.requests := rfl

theorem cache_hits_record_provider_call (u : Usage) (p : String) (t : Time) :
    (record_provider_call u p t).cache_hits = u.cache_hits := rfl

theorem fetchTail_cache (cached : Option CacheEntry) (ss se : Option String)
    (cache : Cache) (u : Usage) (sc ac : Nat) :
    (fetchTail cached ss se cache u sc ac).world.cache = cache := by
  cases cached <;> rfl

theorem fetchTail_rows_none (ss se : Option String) (cache : Cache) (u : Usage)
    (sc ac : Nat) : (fetchTail none ss se cache u sc ac).rows = none := rfl

theorem fetchTail_rows_some (c : CacheEntry) (ss se : Option String) (cache : Cache)
    (u : Usage) (sc ac : Nat) :
    (fetchTail (some c) ss se cache u sc ac).rows = some c.data := rfl

theorem fetchTail_status_some (c : CacheEntry) (ss se : Option String)
    (cache : Cache) (u : Usage) (sc ac : Nat) :
    (fetchTail (some c) ss se cache u sc ac).meta.cache_status = "stale" := rfl

theorem fetchTail_status (cached : Option CacheEntry) (ss se : Option String)
    (cache : Cache) (u : Usage) (sc ac : Nat) :
    ((fetchTail cached ss se cache u sc ac).meta.cache_status = "stale" ∧
       cached ≠ none) ∨
    ((fetchTail cached ss se cache u sc ac).meta.cache_status = "miss" ∧
       (fetchTail cached ss se cache u sc ac).rows = none) := by
  cases cached
  · exact Or.inr ⟨rfl, rfl⟩
  · exact Or.inl ⟨rfl, by simp⟩

/-- C4: when the tiers are entered with an entry present, the primary fetch
fails or is insufficient, and the budgeted tier yields no data (no rows, no
key, or budget check false), the call serves the entry's rows as stale with
`cache_status = "stale"`, records a cache-hit outcome, leaves the cache
unchanged, and attaches the primary error string to the metadata. -/
theorem stale_fallback (seed : Int) (symbol : String) (ss : Option String)
    (interval : String) (cp : Int) (mode alpha_key : String)
    (sRes aRes : AdapterResult) (now : Time) (w : World) (c : CacheEntry)
    (hc : w.cache.lookup ("stock:" ++ symbol ++ ":daily") = some c)
    (htier : mode = "force" ∨ c.expires_at ≤ now)
    (hst : sRes.data = [] ∨ _is_insufficient sRes.data interval cp = true)
    (halpha : aRes.data = [] ∨ alpha_key = "" ∨ can_use_alpha w.usage now = false) :
    (fetch_stock_history seed symbol ss interval cp mode alpha_key sRes aRes now w).rows
        = some c.data ∧
    (fetch_stock_history seed symbol ss interval cp mode alpha_key sRes aRes now
        w).meta.is_stale = true ∧
    (fetch_stock_history seed symbol ss interval cp mode alpha_key sRes aRes now
        w).meta.cache_status = "stale" ∧
    (fetch_stock_history seed symbol ss interval cp mode alpha_key sRes aRes now
        w).meta.provider = some c.provider ∧
    (fetch_stock_history seed symbol ss interval cp mode alpha_key sRes aRes now
        w).meta.stooq_error = stooqErrorOf sRes interval cp ∧
    (∀ e, sRes.err = some e →
      (fetch_stock_history seed symbol ss interval cp mode alpha_key sRes aRes now
          w).meta.stooq_error = some e) ∧
    (fetch_stock_history seed symbol ss interval cp mode alpha_key sRes aRes now
        w).world.cache = w.cache ∧
    (fetch_stock_history seed symbol ss interval cp mode alpha_key sRes aRes now
        w).world.usage.requests = w.usage.requests + 1 ∧
    (fetch_stock_history seed symbol ss interval cp mode alpha_key sRes aRes now
        w).world.usage.cache_hits = w.usage.cache_hits + 1 := by
  have hhit : ¬ (now < c.expires_at ∧ mode ≠ "force") := by
    rcases htier with h | h
    · exact fun hx => hx.2 h
    · exact fun hx => absurd hx.1 (not_lt.mpr h)
  have htg : tierGuard (some c) now mode = true := by
    rcases htier with h | h <;> simp [tierGuard, h]
  have hsuccF : ¬ ((tierGuard (some c) now mode = true) ∧ sRes.data ≠ [] ∧
      ¬ (_is_insufficient sRes.data interval cp = true)) := by
    rcases hst with h | h
    · exact fun hx => hx.2.1 h
    · exact fun hx => hx.2.2 h
  have herr : ∀ e, sRes.err = some e → stooqErrorOf sRes interval cp = some e := by
    intro e he; simp [stooqErrorOf, he]
  have hstep : fetch_stock_history seed symbol ss interval cp mode alpha_key sRes aRes
      now w = fetchTiers seed symbol ss interval cp mode alpha_key sRes aRes now w
        (some c) := by
    simp [fetch_stock_history, get_entry, hc, hhit]
  rw [hstep]
  simp only [fetchTiers]
  rw [if_neg hsuccF]
  simp only [htg, if_true, can_use_alpha_stooqFailureBook]
  rcases halpha with ha | ha | ha
  · split_ifs with h1 <;>
      simp_all [fetchTail, record_request, requests_stooqFailureBook,
        cache_hits_stooqFailureBook, requests_record_provider_call,
        cache_hits_record_provider_call, herr]
  · split_ifs with h1 <;>
      simp_all [fetchTail, record_request, requests_stooqFailureBook,
        cache_hits_stooqFailureBook, requests_record_provider_call,
        cache_hits_record_provider_call, herr]
  · split_ifs with h1 <;>
      simp_all [fetchTail, record_request, requests_stooqFailureBook,
        cache_hits_stooqFailureBook, requests_record_provider_call,
        cache_hits_record_provider_call, herr]

/-- C4 witness: an expired entry with a network-failing primary and an
exhausted budget is served stale with the primary error attached. -/
theorem stale_fallback_witness :
    (fetch_stock_history 0 "AAPL" (some "aapl.us") "1d" 60 "daily" "demo"
        ⟨[], some "network"⟩ ⟨[], none⟩ 2000
        ⟨[("stock:AAPL:daily", ⟨"stooq", some "aapl.us", 100, 1000, [⟨1, 1, 1, 1, 1, 1⟩]⟩)],
         ⟨[], [], 0, 0, 0⟩⟩).rows = some [⟨1, 1, 1, 1, 1, 1⟩] ∧
    (fetch_stock_history 0 "AAPL" (some "aapl.us") "1d" 60 "daily" "demo"
        ⟨[], some "network"⟩ ⟨[], none⟩ 2000
        ⟨[("stock:AAPL:daily", ⟨"stooq", some "aapl.us", 100, 1000, [⟨1, 1, 1, 1, 1, 1⟩]⟩)],
         ⟨[], [], 0, 0, 0⟩⟩).meta.is_stale = true ∧
    (fetch_stock_history 0 "AAPL" (some "aapl.us") "1d" 60 "daily" "demo"
        ⟨[], some "network"⟩ ⟨[], none⟩ 2000
        ⟨[("stock:AAPL:daily", ⟨"stooq", some "aapl.us", 100, 1000, [⟨1, 1, 1, 1, 1, 1⟩]⟩)],
         ⟨[], [], 0, 0, 0⟩⟩).meta.stooq_error = some "network" := by
  have h := stale_fallback 0 "AAPL" (some "aapl.us") "1d" 60 "daily" "demo"
    ⟨[], some "network"⟩ ⟨[], none⟩ 2000
    ⟨[("stock:AAPL:daily", ⟨"stooq", some "aapl.us", 100, 1000, [⟨1, 1, 1, 1, 1, 1⟩]⟩)],
     ⟨[], [], 0, 0, 0⟩⟩ ⟨"stooq", some "aapl.us", 100, 1000, [⟨1, 1, 1, 1, 1, 1⟩]⟩
    (by decide) (Or.inr (by decide)) (Or.inl (by decide)) (Or.inl (by decide))
  exact ⟨h.1, h.2.1, h.2.2.2.2.2.1 "network" rfl⟩

theorem total_failure_fwd (seed : Int) (symbol : String) (ss : Option String)
    (interval : String) (cp : Int) (mode alpha_key : String)
    (sRes aRes : AdapterResult) (now : Time) (w : World)
    (hc : w.cache.lookup ("stock:" ++ symbol ++ ":daily") = none)
    (hst : sRes.data = [] ∨ _is_insufficient sRes.data interval cp = true)
    (halpha : aRes.data = [] ∨ alpha_key = "" ∨ can_use_alpha w.usage now = false) :
    (fetch_stock_history seed symbol ss interval cp mode alpha_key sRes aRes now w).rows
        = none ∧
    (fetch_stock_history seed symbol ss interval cp mode alpha_key sRes aRes now
        w).meta.cache_status = "miss" ∧
    (fetch_stock_history seed symbol ss interval cp mode alpha_key sRes aRes now
        w).meta.is_stale = false ∧
    (fetch_stock_history seed symbol ss interval cp mode alpha_key sRes aRes now
        w).meta.provider = none ∧
    (fetch_stock_history seed symbol ss interval cp mode alpha_key sRes aRes now
        w).meta.stooq_error = stooqErrorOf sRes interval cp ∧
    (∀ e, sRes.err = some e →
      (fetch_stock_history seed symbol ss interval cp mode alpha_key sRes aRes now
          w).meta.stooq_error = some e) ∧
    (fetch_stock_history seed symbol ss interval cp mode alpha_key sRes aRes now
        w).world.cache = w.cache ∧
    (fetch_stock_history seed symbol ss interval cp mode alpha_key sRes aRes now
        w).world.usage.requests = w.usage.requests + 1 ∧
    (fetch_stock_history seed symbol ss interval cp mode alpha_key sRes aRes now
        w).world.usage.cache_hits = w.usage.cache_hits := by
  have htg : tierGuard none now mode = true := by simp [tierGuard]
  have hsuccF : ¬ ((tierGuard none now mode = true) ∧ sRes.data ≠ [] ∧
      ¬ (_is_insufficient sRes.data interval cp = true)) := by
    rcases hst with h | h
    · exact fun hx => hx.2.1 h
    · exact fun hx => hx.2.2 h
  have herr : ∀ e, sRes.err = some e → stooqErrorOf sRes interval cp = some e := by
    intro e he; simp [stooqErrorOf, he]
  have hstep : fetch_stock_history seed symbol ss interval cp mode alpha_key sRes aRes
      now w = fetchTiers seed symbol ss interval cp mode alpha_key sRes aRes now w
        none := by
    simp [fetch_stock_history, get_entry, hc]
  rw [hstep]
  simp only [fetchTiers]
  rw [if_neg hsuccF]
  simp only [htg, if_true, can_use_alpha_stooqFailureBook]
  rcases halpha with ha | ha | ha
  · split_ifs with h1 <;>
      simp_all [fetchTail, record_request, requests_stooqFailureBook,
        cache_hits_stooqFailureBook, requests_record_provider_call,
        cache_hits_record_provider_call, herr]
  · split_ifs with h1 <;>
      simp_all [fetchTail, record_request, requests_stooqFailureBook,
        cache_hits_stooqFailureBook, requests_record_provider_call,
        cache_hits_record_provider_call, herr]
  · split_ifs with h1 <;>
      simp_all [fetchTail, record_request, requests_stooqFailureBook,
        cache_hits_stooqFailureBook, requests_record_provider_call,
        cache_hits_record_provider_call, herr]



/-- C5: with no cache entry and neither provider returning data, the call
returns no rows, metadata `cache_status = "miss"` with `is_stale = false`
and the primary error attached, records a cache-miss outcome, and leaves
the cache unchanged (the path is a normal return, not an exception);
conversely, a call returns no rows only in exactly that situation, so
total unavailability is the only condition surfaced as an absence of
data. -/
theorem total_failure :
    (∀ (seed : Int) (symbol : String) (ss : Option String) (interval : String)
       (cp : Int) (mode alpha_key : String) (sRes aRes : AdapterResult)
       (now : Time) (w : World),
       w.cache.lookup ("stock:" ++ symbol ++ ":daily") = none →
       (sRes.data = [] ∨ _is_insufficient sRes.data interval cp = true) →
       (aRes.data = [] ∨ alpha_key = "" ∨ can_use_alpha w.usage now = false) →
       (fetch_stock_history seed symbol ss interval cp mode alpha_key sRes aRes now
           w).rows = none ∧
       (fetch_stock_history seed symbol ss interval cp mode alpha_key sRes aRes now
           w).meta.cache_status = "miss" ∧
       (fetch_stock_history seed symbol ss interval cp mode alpha_key sRes aRes now
           w).meta.is_stale = false ∧
       (fetch_stock_history seed symbol ss interval cp mode alpha_key sRes aRes now
           w).meta.provider = none ∧
       (fetch_stock_history seed symbol ss interval cp mode alpha_key sRes aRes now
           w).meta.stooq_error = stooqErrorOf sRes interval cp ∧
       (∀ e, sRes.err = some e →
         (fetch_stock_history seed symbol ss interval cp mode alpha_key sRes aRes now
             w).meta.stooq_error = some e) ∧
       (fetch_stock_history seed symbol ss interval cp mode alpha_key sRes aRes now
           w).world.cache = w.cache ∧
       (fetch_stock_history seed symbol ss interval cp mode alpha_key sRes aRes now
           w).world.usage.requests = w.usage.requests + 1 ∧
       (fetch_stock_history seed symbol ss interval cp mode alpha_key sRes aRes now
           w).world.usage.cache_hits = w.usage.cache_hits) ∧
    (∀ (seed : Int) (symbol : String) (ss : Option String) (interval : String)
       (cp : Int) (mode alpha_key : String) (sRes aRes : AdapterResult)
       (now : Time) (w : World),
       (fetch_stock_history seed symbol ss interval cp mode alpha_key sRes aRes now
           w).rows = none →
       w.cache.lookup ("stock:" ++ symbol ++ ":daily") = none ∧
       (sRes.data = [] ∨ _is_insufficient sRes.data interval cp = true) ∧
       (aRes.data = [] ∨ alpha_key = "" ∨ can_use_alpha w.usage now = false)) := by
  constructor
  · intro seed symbol ss interval cp mode alpha_key sRes aRes now w hc hst halpha
    exact total_failure_fwd seed symbol ss interval cp mode alpha_key sRes aRes now w
      hc hst halpha
  · intro seed symbol ss interval cp mode alpha_key sRes aRes now w hnone
    rcases hcl : w.cache.lookup ("stock:" ++ symbol ++ ":daily") with _ | c
    · have hstep : fetch_stock_history seed symbol ss interval cp mode alpha_key sRes
          aRes now w = fetchTiers seed symbol ss interval cp mode alpha_key sRes aRes
            now w none := by
        simp [fetch_stock_history, get_entry, hcl]
      rw [hstep] at hnone
      have htg : tierGuard none now mode = true := by simp [tierGuard]
      unfold fetchTiers at hnone
      by_cases h1 : (tierGuard none now mode = true) ∧ sRes.data ≠ [] ∧
          ¬ (_is_insufficient sRes.data interval cp = true)
      · rw [if_pos h1] at hnone
        simp at hnone
      · rw [if_neg h1] at hnone
        simp only [htg, if_true, can_use_alpha_stooqFailureBook] at hnone
        have hst : sRes.data = [] ∨ _is_insufficient sRes.data interval cp = true := by
          by_cases hd : sRes.data = []
          · exact Or.inl hd
          · by_cases hi : _is_insufficient sRes.data interval cp = true
            · exact Or.inr hi
            · exact absurd ⟨htg, hd, hi⟩ h1
        refine ⟨rfl, hst, ?_⟩
        by_cases h2 : alpha_key = ""
        · exact Or.inr (Or.inl h2)
        · by_cases h3 : can_use_alpha w.usage now = true
          · left
            by_contra h5
            simp only [h2, h3, htg] at hnone
            simp [h2, h5, fetchTail_rows_none] at hnone
          · right; right
            cases hcu : can_use_alpha w.usage now
            · rfl
            · exact absurd hcu h3
    · exfalso
      by_cases hhit : now < c.expires_at ∧ mode ≠ "force"
      · have hstep : fetch_stock_history seed symbol ss interval cp mode alpha_key sRes
            aRes now w =
            ⟨some c.data,
             ⟨some c.provider, c.source_symbol, some c.fetched_at, some c.expires_at,
              false, "hit", none, none⟩,
             ⟨w.cache, record_request w.usage true⟩, 0, 0⟩ := by
          simp [fetch_stock_history, get_entry, hcl, hhit]
        rw [hstep] at hnone
        simp at hnone
      · have hstep : fetch_stock_history seed symbol ss interval cp mode alpha_key sRes
            aRes now w = fetchTiers seed symbol ss interval cp mode alpha_key sRes
              aRes now w (some c) := by
          simp [fetch_stock_history, get_entry, hcl, hhit]
        rw [hstep] at hnone
        have htg2 : tierGuard (some c) now mode = true := by
          simp only [tierGuard]
          by_cases hm : mode = "force"
          · simp [hm]
          · have hle : c.expires_at ≤ now := by
              by_contra hlt
              exact hhit ⟨not_le.mp hlt, hm⟩
            simp [hm, hle]
        unfold fetchTiers at hnone
        simp only [htg2, if_true, can_use_alpha_stooqFailureBook] at hnone
        split_ifs at hnone <;> simp [fetchTail_rows_some] at hnone

/-- C5 witness: empty cache, primary network failure, no Alpha key. -/
theorem total_failure_witness :
    (fetch_stock_history 0 "AAPL" (some "aapl.us") "1d" 60 "daily" ""
        ⟨[], some "network"⟩ ⟨[], none⟩ 500 ⟨[], ⟨[], [], 0, 0, 0⟩⟩).rows = none ∧
    (fetch_stock_history 0 "AAPL" (some "aapl.us") "1d" 60 "daily" ""
        ⟨[], some "network"⟩ ⟨[], none⟩ 500
        ⟨[], ⟨[], [], 0, 0, 0⟩⟩).meta.cache_status = "miss" ∧
    (fetch_stock_history 0 "AAPL" (some "aapl.us") "1d" 60 "daily" ""
        ⟨[], some "network"⟩ ⟨[], none⟩ 500
        ⟨[], ⟨[], [], 0, 0, 0⟩⟩).meta.stooq_error = some "network" := by
  have h := total_failure.1 0 "AAPL" (some "aapl.us") "1d" 60 "daily" ""
    ⟨[], some "network"⟩ ⟨[], none⟩ 500 ⟨[], ⟨[], [], 0, 0, 0⟩⟩
    (by decide) (Or.inl (by decide)) (Or.inr (Or.inl (by decide)))
  exact ⟨h.1, h.2.1, h.2.2.2.2.2.1 "network" rfl⟩

/-- C6: the cache is written exactly on a successful provider fetch: on the
hit, stale and total-failure paths the store is unchanged; every write
touches only the key `stock:<symbol>:daily`; whenever the store did
change, the call was a success (`cache_status = "miss"` with rows) and the
new store is exactly the old one with that key overwritten by the returned
entry; and conversely every successful call (`cache_status = "miss"` with
rows) leaves the store equal to the old one with that key overwritten by
the returned entry. -/
theorem cache_write_frame (seed : Int) (symbol : String) (ss : Option String)
    (interval : String) (cp : Int) (mode alpha_key : String)
    (sRes aRes : AdapterResult) (now : Time) (w : World) :
    (((fetch_stock_history seed symbol ss interval cp mode alpha_key sRes aRes now
          w).meta.cache_status = "hit" ∨
      (fetch_stock_history seed symbol ss interval cp mode alpha_key sRes aRes now
          w).meta.cache_status = "stale" ∨
      (fetch_stock_history seed symbol ss interval cp mode alpha_key sRes aRes now
          w).rows = none) →
      (fetch_stock_history seed symbol ss interval cp mode alpha_key sRes aRes now
          w).world.cache = w.cache) ∧
    (∀ k, k ≠ "stock:" ++ symbol ++ ":daily" →
      (fetch_stock_history seed symbol ss interval cp mode alpha_key sRes aRes now
          w).world.cache.lookup k = w.cache.lookup k) ∧
    ((fetch_stock_history seed symbol ss interval cp mode alpha_key sRes aRes now
        w).world.cache ≠ w.cache →
      (fetch_stock_history seed symbol ss interval cp mode alpha_key sRes aRes now
          w).meta.cache_status = "miss" ∧
      ∃ e : CacheEntry,
        (fetch_stock_history seed symbol ss interval cp mode alpha_key sRes aRes now
            w).rows = some e.data ∧
        (fetch_stock_history seed symbol ss interval cp mode alpha_key sRes aRes now
            w).world.cache =
          set_entry w.cache ("stock:" ++ symbol ++ ":daily") e) ∧
    ((fetch_stock_history seed symbol ss interval cp mode alpha_key sRes aRes now
        w).meta.cache_status = "miss" ∧
      (fetch_stock_history seed symbol ss interval cp mode alpha_key sRes aRes now
          w).rows ≠ none →
      ∃ e : CacheEntry,
        (fetch_stock_history seed symbol ss interval cp mode alpha_key sRes aRes now
            w).rows = some e.data ∧
        (fetch_stock_history seed symbol ss interval cp mode alpha_key sRes aRes now
            w).world.cache =
          set_entry w.cache ("stock:" ++ symbol ++ ":daily") e) := by
  have tiers : ∀ cached : Option CacheEntry,
      (((fetchTiers seed symbol ss interval cp mode alpha_key sRes aRes now w
            cached).meta.cache_status = "hit" ∨
        (fetchTiers seed symbol ss interval cp mode alpha_key sRes aRes now w
            cached).meta.cache_status = "stale" ∨
        (fetchTiers seed symbol ss interval cp mode alpha_key sRes aRes now w
            cached).rows = none) →
        (fetchTiers seed symbol ss interval cp mode alpha_key sRes aRes now w
            cached).world.cache = w.cache) ∧
      (∀ k, k ≠ "stock:" ++ symbol ++ ":daily" →
        (fetchTiers seed symbol ss interval cp mode alpha_key sRes aRes now w
            cached).world.cache.lookup k = w.cache.lookup k) ∧
      ((fetchTiers seed symbol ss interval cp mode alpha_key sRes aRes now w
          cached).world.cache ≠ w.cache →
        (fetchTiers seed symbol ss interval cp mode alpha_key sRes aRes now w
            cached).meta.cache_status = "miss" ∧
        ∃ e : CacheEntry,
          (fetchTiers seed symbol ss interval cp mode alpha_key sRes aRes now w
              cached).rows = some e.data ∧
          (fetchTiers seed symbol ss interval cp mode alpha_key sRes aRes now w
              cached).world.cache =
            set_entry w.cache ("stock:" ++ symbol ++ ":daily") e) ∧
      ((fetchTiers seed symbol ss interval cp mode alpha_key sRes aRes now w
          cached).meta.cache_status = "miss" ∧
        (fetchTiers seed symbol ss interval cp mode alpha_key sRes aRes now w
            cached).rows ≠ none →
        ∃ e : CacheEntry,
          (fetchTiers seed symbol ss interval cp mode alpha_key sRes aRes now w
              cached).rows = some e.data ∧
          (fetchTiers seed symbol ss interval cp mode alpha_key sRes aRes now w
              cached).world.cache =
            set_entry w.cache ("stock:" ++ symbol ++ ":daily") e) := by
    intro cached
    unfold fetchTiers
    by_cases h1 : (tierGuard cached now mode = true) ∧ sRes.data ≠ [] ∧
        ¬ (_is_insufficient sRes.data interval cp = true)
    · rw [if_pos h1]
      refine ⟨?_, ?_, ?_, ?_⟩
      · intro hx; simp at hx
      · intro k hk; simp [set_entry, lookup_setA, hk]
      · intro _; exact ⟨rfl, ⟨_, rfl, rfl⟩⟩
      · intro _; exact ⟨_, rfl, rfl⟩
    · rw [if_neg h1]
      by_cases htg : tierGuard cached now mode = true
      · simp only [htg, if_true]
        split_ifs with h2 h3
        · refine ⟨?_, ?_, ?_, ?_⟩
          · intro hx; simp at hx
          · intro k hk; simp [set_entry, lookup_setA, hk]
          · intro _; exact ⟨rfl, ⟨_, rfl, rfl⟩⟩
          · intro _; exact ⟨_, rfl, rfl⟩
        · refine ⟨?_, ?_, ?_, ?_⟩
          · intro _; exact fetchTail_cache _ _ _ _ _ _ _
          · intro k hk; rw [fetchTail_cache]
          · intro hx; exact absurd (fetchTail_cache _ _ _ _ _ _ _) hx
          · rintro ⟨hm, hr⟩
            exfalso
            cases cached with
            | none => rw [fetchTail_rows_none] at hr; exact hr rfl
            | some c2 =>
                rw [fetchTail_status_some] at hm
                exact absurd hm (by decide)
        · refine ⟨?_, ?_, ?_, ?_⟩
          · intro _; exact fetchTail_cache _ _ _ _ _ _ _
          · intro k hk; rw [fetchTail_cache]
          · intro hx; exact absurd (fetchTail_cache _ _ _ _ _ _ _) hx
          · rintro ⟨hm, hr⟩
            exfalso
            cases cached with
            | none => rw [fetchTail_rows_none] at hr; exact hr rfl
            | some c2 =>
                rw [fetchTail_status_some] at hm
                exact absurd hm (by decide)
      · refine ⟨?_, ?_, ?_, ?_⟩
        · intro _
          simp [htg, fetchTail_cache]
        · intro k hk
          simp [htg, fetchTail_cache]
        · intro hx
          exfalso
          apply hx
          simp [htg, fetchTail_cache]
        · rintro ⟨hm, hr⟩
          exfalso
          cases cached with
          | none =>
              apply hr
              simp [htg, fetchTail_rows_none]
          | some c2 =>
              simp [htg, fetchTail_status_some] at hm
  rcases hcl : w.cache.lookup ("stock:" ++ symbol ++ ":daily") with _ | c
  · have hstep : fetch_stock_history seed symbol ss interval cp mode alpha_key sRes
        aRes now w =
        fetchTiers seed symbol ss interval cp mode alpha_key sRes aRes now w none := by
      simp [fetch_stock_history, get_entry, hcl]
    rw [hstep]; exact tiers none
  · by_cases hhit : now < c.expires_at ∧ mode ≠ "force"
    · have hstep : fetch_stock_history seed symbol ss interval cp mode alpha_key sRes
          aRes now w =
          ⟨some c.data,
           ⟨some c.provider, c.source_symbol, some c.fetched_at, some c.expires_at,
            false, "hit", none, none⟩,
           ⟨w.cache, record_request w.usage true⟩, 0, 0⟩ := by
        simp [fetch_stock_history, get_entry, hcl, hhit]
      rw [hstep]
      exact ⟨fun _ => rfl, fun k hk => rfl, fun hx => absurd rfl hx,
        fun hx => by have hm := hx.1; simp at hm⟩
    · have hstep : fetch_stock_history seed symbol ss interval cp mode alpha_key sRes
          aRes now w =
          fetchTiers seed symbol ss interval cp mode alpha_key sRes aRes now w
            (some c) := by
        simp [fetch_stock_history, get_entry, hcl, hhit]
      rw [hstep]; exact tiers (some c)

/-- C6 witness: a stale-path call leaves a concrete store unchanged, and a
successful call changes only the fetched symbol's key. -/
theorem cache_write_frame_witness :
    (fetch_stock_history 0 "AAPL" (some "aapl.us") "1d" 60 "daily" "demo"
        ⟨[], some "network"⟩ ⟨[], none⟩ 2000
        ⟨[("stock:AAPL:daily", ⟨"stooq", some "aapl.us", 100, 1000, [⟨1, 1, 1, 1, 1, 1⟩]⟩)],
         ⟨[], [], 0, 0, 0⟩⟩).world.cache =
      [("stock:AAPL:daily", ⟨"stooq", some "aapl.us", 100, 1000, [⟨1, 1, 1, 1, 1, 1⟩]⟩)] ∧
    (fetch_stock_history 0 "AAPL" none "1d" 60 "daily" ""
        ⟨List.replicate 30 ⟨1, 1, 1, 1, 1, 1⟩, none⟩ ⟨[], none⟩ 500
        ⟨[("stock:MSFT:daily", ⟨"stooq", none, 1, 2, []⟩)],
         ⟨[], [], 0, 0, 0⟩⟩).world.cache.lookup "stock:MSFT:daily" =
      some ⟨"stooq", none, 1, 2, []⟩ := by
  constructor
  · exact (cache_write_frame 0 "AAPL" (some "aapl.us") "1d" 60 "daily" "demo"
      ⟨[], some "network"⟩ ⟨[], none⟩ 2000
      ⟨[("stock:AAPL:daily", ⟨"stooq", some "aapl.us", 100, 1000, [⟨1, 1, 1, 1, 1, 1⟩]⟩)],
       ⟨[], [], 0, 0, 0⟩⟩).1 (Or.inr (Or.inl (by decide)))
  · exact ((cache_write_frame 0 "AAPL" none "1d" 60 "daily" ""
      ⟨List.replicate 30 ⟨1, 1, 1, 1, 1, 1⟩, none⟩ ⟨[], none⟩ 500
      ⟨[("stock:MSFT:daily", ⟨"stooq", none, 1, 2, []⟩)],
       ⟨[], [], 0, 0, 0⟩⟩).2.1 "stock:MSFT:daily" (by decide)).trans (by decide)

theorem weekFriday_ge (n : Int) : n ≤ weekFriday n := by
  unfold weekFriday; omega

theorem weekFriday_mono {a b : Int} (h : a ≤ b) : weekFriday a ≤ weekFriday b := by
  unfold weekFriday; omega

theorem weekFriday_emod (n : Int) : weekFriday n % 7 = 1 := by
  unfold weekFriday; omega

theorem head_keyList (step : Int → Int) :
    ∀ (fuel : Nat) (k0 k1 x : Int), x ∈ (keyList step fuel k0 k1).head? → x = k0 := by
  intro fuel k0 k1 x hx
  cases fuel with
  | zero => simp [keyList] at hx
  | succ n =>
      by_cases h : k0 ≤ k1
      · simp [keyList, h] at hx; exact hx.symm
      · simp [keyList, h] at hx

theorem chain'_keyList (step : Int → Int) (hs : ∀ k, k < step k) :
    ∀ (fuel : Nat) (k0 k1 : Int), List.Chain' (· < ·) (keyList step fuel k0 k1) := by
  intro fuel
  induction fuel with
  | zero => intro k0 k1; simp [keyList]
  | succ n ih =>
      intro k0 k1
      by_cases h : k0 ≤ k1
      · simp only [keyList, if_pos h]
        refine List.chain'_cons'.mpr ⟨?_, ih (step k0) k1⟩
        intro y hy
        have hy2 := head_keyList step n (step k0) k1 y hy
        subst hy2
        exact hs k0
      · simp [keyList, h]

theorem mem_keyList_week (fuel : Nat) :
    ∀ (k0 k1 k : Int), k1 - k0 < 7 * fuel →
      (k ∈ keyList weekStep fuel k0 k1 ↔ (k0 ≤ k ∧ k ≤ k1 ∧ (k - k0) % 7 = 0)) := by
  induction fuel with
  | zero =>
      intro k0 k1 k hf
      simp only [keyList, List.not_mem_nil, false_iff]
      omega
  | succ n ih =>
      intro k0 k1 k hf
      by_cases h : k0 ≤ k1
      · simp only [keyList, weekStep, if_pos h, List.mem_cons]
        rw [ih (k0 + 7) k1 k (by omega)]
        constructor
        · rintro (rfl | ⟨h1, h2, h3⟩)
          · exact ⟨le_refl k, h, by omega⟩
          · exact ⟨by omega, h2, by omega⟩
        · rintro ⟨h1, h2, h3⟩
          by_cases hk : k = k0
          · exact Or.inl hk
          · exact Or.inr ⟨by omega, h2, by omega⟩
      · simp only [keyList, if_neg h, List.not_mem_nil, false_iff]
        omega

theorem mem_dedupKeys : ∀ (l : List Int) (x : Int), x ∈ dedupKeys l ↔ x ∈ l := by
  intro l
  induction l with
  | nil => intro x; simp [dedupKeys]
  | cons a t ih =>
      intro x
      cases t with
      | nil => simp [dedupKeys]
      | cons b t2 =>
          simp only [dedupKeys]
          by_cases h : a = b
          · rw [if_pos h, ih x]
            subst h
            simp [List.mem_cons]
          · rw [if_neg h]
            simp only [List.mem_cons] at ih ⊢
            rw [ih x]

theorem head_dedupKeys : ∀ (t : List Int) (b : Int), (dedupKeys (b :: t)).head? = some b := by
  intro t
  induction t with
  | nil => intro b; simp [dedupKeys]
  | cons c t2 ih =>
      intro b
      by_cases h : b = c
      · simp only [dedupKeys, if_pos h]
        subst h
        exact ih b
      · simp [dedupKeys, if_neg h]

theorem chain'_lt_dedupKeys : ∀ (l : List Int),
    List.Chain' (· ≤ ·) l → List.Chain' (· < ·) (dedupKeys l) := by
  intro l
  induction l with
  | nil => intro _; simp [dedupKeys]
  | cons a t ih =>
      intro hc
      cases t with
      | nil => simp [dedupKeys]
      | cons b t2 =>
          have hab : a ≤ b := List.chain'_cons.mp hc |>.1
          have htail : List.Chain' (· ≤ ·) (b :: t2) := List.chain'_cons.mp hc |>.2
          simp only [dedupKeys]
          by_cases h : a = b
          · rw [if_pos h]; exact ih htail
          · rw [if_neg h]
            refine List.chain'_cons'.mpr ⟨?_, ih htail⟩
            intro y hy
            rw [head_dedupKeys t2 b] at hy
            simp at hy
            subst hy
            exact lt_of_le_of_ne hab h

theorem filterMap_eq_of_sorted {α : Type} (f : Int → Option α) :
    ∀ (l1 l2 : List Int), List.Pairwise (· < ·) l1 → List.Pairwise (· < ·) l2 →
      (∀ k, (k ∈ l1 ∧ f k ≠ none) ↔ k ∈ l2) →
      l1.filterMap f = l2.filterMap f := by
  intro l1
  induction l1 with
  | nil =>
      intro l2 _ _ hiff
      have : l2 = [] := by
        apply List.eq_nil_iff_forall_not_mem.mpr
        intro x hx
        have := (hiff x).mpr hx
        simp at this
      subst this; rfl
  | cons a t1 ih =>
      intro l2 hp1 hp2 hiff
      have hp1t : List.Pairwise (· < ·) t1 := (List.pairwise_cons.mp hp1).2
      have ha1 : ∀ x ∈ t1, a < x := (List.pairwise_cons.mp hp1).1
      cases hfa : f a with
      | none =>
          rw [List.filterMap_cons_none hfa]
          apply ih l2 hp1t hp2
          intro k
          constructor
          · rintro ⟨hk, hfk⟩
            exact (hiff k).mp ⟨List.mem_cons_of_mem a hk, hfk⟩
          · intro hk
            obtain ⟨hk1, hfk⟩ := (hiff k).mpr hk
            rcases List.mem_cons.mp hk1 with rfl | hk1
            · exact absurd hfa hfk
            · exact ⟨hk1, hfk⟩
      | some b =>
          have ha2 : a ∈ l2 := (hiff a).mp ⟨List.mem_cons_self a t1, by simp [hfa]⟩
          cases l2 with
          | nil => exact absurd ha2 (List.not_mem_nil a)
          | cons a2 t2 =>
              have hp2t : List.Pairwise (· < ·) t2 := (List.pairwise_cons.mp hp2).2
              have ha22 : ∀ x ∈ t2, a2 < x := (List.pairwise_cons.mp hp2).1
              have haa : a = a2 := by
                have h1 : a ≤ a2 := by
                  obtain ⟨hm, _⟩ := (hiff a2).mpr (List.mem_cons_self a2 t2)
                  rcases List.mem_cons.mp hm with rfl | hm
                  · exact le_refl a2
                  · exact le_of_lt (ha1 a2 hm)
                rcases List.mem_cons.mp ha2 with rfl | hm
                · rfl
                · exact absurd (ha22 a hm) (not_lt.mpr h1)
              subst haa
              rw [List.filterMap_cons_some hfa, List.filterMap_cons_some hfa]
              congr 1
              apply ih t2 hp1t hp2t
              intro k
              constructor
              · rintro ⟨hk, hfk⟩
                have hka : a < k := ha1 k hk
                have := (hiff k).mp ⟨List.mem_cons_of_mem a hk, hfk⟩
                rcases List.mem_cons.mp this with rfl | hk2
                · exact absurd hka (lt_irrefl k)
                · exact hk2
              · intro hk
                have hka : a < k := ha22 k hk
                obtain ⟨hk1, hfk⟩ := (hiff k).mpr (List.mem_cons_of_mem a hk)
                rcases List.mem_cons.mp hk1 with rfl | hk1
                · exact absurd hka (lt_irrefl k)
                · exact ⟨hk1, hfk⟩

theorem aggBucket_eq_none_iff (k : Int) (g : List Bar) :
    aggBucket k g = none ↔ g = [] := by
  cases g <;> simp [aggBucket]

theorem pairwise_t_head_le (r : Bar) (rows : List Bar)
    (hp : List.Pairwise (fun a b => a.t < b.t) (r :: rows)) :
    ∀ b ∈ r :: rows, r.t ≤ b.t := by
  intro b hb
  rcases List.mem_cons.mp hb with rfl | hb
  · exact le_refl _
  · exact le_of_lt ((List.pairwise_cons.mp hp).1 b hb)

theorem le_t_getLastD : ∀ (rows : List Bar) (r : Bar),
    List.Pairwise (fun a b => a.t < b.t) (r :: rows) →
    ∀ b ∈ r :: rows, b.t ≤ ((r :: rows).getLastD r).t := by
  intro rows
  induction rows with
  | nil =>
      intro r _ b hb
      simp at hb
      subst hb
      simp [List.getLastD]
  | cons c t ih =>
      intro r hp b hb
      have hp2 : List.Pairwise (fun a b => a.t < b.t) (c :: t) :=
        (List.pairwise_cons.mp hp).2
      have hgl : ((r :: c :: t).getLastD r) = ((c :: t).getLastD c) := by
        rw [List.getLastD_cons, List.getLastD_cons, List.getLastD_cons]
      rw [hgl]
      rcases List.mem_cons.mp hb with rfl | hb
      · exact le_trans
          (le_of_lt ((List.pairwise_cons.mp hp).1 c (List.mem_cons_self c t)))
          (ih c hp2 c (List.mem_cons_self c t))
      · exact ih c hp2 b hb

theorem resampleRule_week_eq (rows : List Bar)
    (hp : List.Pairwise (fun a b => a.t < b.t) rows) :
    resampleRule weekFriday weekStep rows = weeklyGroupsSpec rows := by
  cases rows with
  | nil => rfl
  | cons r rest =>
      have hhead := pairwise_t_head_le r rest hp
      have hlast := le_t_getLastD rest r hp
      haveI : IsTrans Bar (fun a b => a.t < b.t) := ⟨fun a b c h1 h2 => lt_trans h1 h2⟩
      simp only [resampleRule, weeklyGroupsSpec]
      apply filterMap_eq_of_sorted
      · exact List.chain'_iff_pairwise.mp
          (chain'_keyList weekStep (fun k => by simp only [weekStep]; omega) _ _ _)
      · refine List.chain'_iff_pairwise.mp (chain'_lt_dedupKeys _ ?_)
        have hc : List.Chain' (fun a b => a.t < b.t) (r :: rest) :=
          List.chain'_iff_pairwise.mpr hp
        rw [List.chain'_map]
        exact hc.imp (fun a b hab => weekFriday_mono (le_of_lt hab))
      · intro k
        rw [mem_dedupKeys, List.mem_map]
        constructor
        · rintro ⟨_, hfk⟩
          rcases hg : (r :: rest).filter (fun b => weekFriday b.t = k) with _ | ⟨b, g⟩
          · exact absurd ((aggBucket_eq_none_iff k _).mpr hg) hfk
          · have hb : b ∈ (r :: rest).filter (fun b => weekFriday b.t = k) := by
              rw [hg]; exact List.mem_cons_self b g
            rw [List.mem_filter] at hb
            exact ⟨b, hb.1, by simpa using hb.2⟩
        · rintro ⟨b, hb, rfl⟩
          constructor
          · rw [mem_keyList_week _ _ _ _ (by omega)]
            refine ⟨weekFriday_mono (hhead b hb), weekFriday_mono (hlast b hb), ?_⟩
            have h1 := weekFriday_emod b.t
            have h2 := weekFriday_emod r.t
            omega
          · have hb2 : b ∈ (r :: rest).filter
                (fun x => weekFriday x.t = weekFriday b.t) := by
              rw [List.mem_filter]
              exact ⟨hb, by simp⟩
            intro hnone
            rw [aggBucket_eq_none_iff] at hnone
            rw [hnone] at hb2
            exact List.not_mem_nil b hb2

/-- C9: for every strictly increasing daily series, weekly resampling
equals the spec's description — group rows by their week-ending Friday and
aggregate each nonempty bucket as open = first, high = max, low = min,
close = last, volume = sum, dropping closeless (empty) buckets; in
particular ten consecutive daily bars spanning two weeks produce exactly
two weekly buckets with the first/max/min/last/sum fields of their bars,
and four bars spanning two calendar months produce the two month-end
buckets aggregated the same way. -/
theorem resampling_correctness :
    (∀ rows : List Bar, List.Chain' (fun a b => a.t < b.t) rows →
       resample_history rows "1w" = weeklyGroupsSpec rows ∧
       resample_history rows "weekly" = weeklyGroupsSpec rows) ∧
    resample_history exWeek10 "1w" =
      [⟨8, 10, 25, 3, 19, 500⟩, ⟨15, 30, 45, 23, 39, 1000⟩] ∧
    resample_history [⟨25, 1, 5, 0, 2, 10⟩, ⟨26, 2, 6, 1, 3, 10⟩,
        ⟨33, 7, 9, 6, 8, 10⟩, ⟨34, 8, 11, 5, 9, 10⟩] "1m" =
      [⟨30, 1, 6, 0, 3, 20⟩, ⟨58, 7, 11, 5, 9, 20⟩] := by
  refine ⟨?_, ?_, ?_⟩
  · intro rows hc
    haveI : IsTrans Bar (fun a b => a.t < b.t) := ⟨fun a b c h1 h2 => lt_trans h1 h2⟩
    have hp := List.chain'_iff_pairwise.mp hc
    constructor
    · have h : resample_history rows "1w" = resampleRule weekFriday weekStep rows := by
        simp [resample_history]
      rw [h]
      exact resampleRule_week_eq rows hp
    · have h : resample_history rows "weekly" =
          resampleRule weekFriday weekStep rows := by
        simp [resample_history]
      rw [h]
      exact resampleRule_week_eq rows hp
  · norm_num +decide [resample_history, resampleRule, keyList, weekStep, weekFriday,
      aggBucket, exWeek10, List.filterMap_cons, List.filter_cons, List.getLastD_cons]
  · have h1 : monthEnd 25 = 30 := by decide
    have h2 : monthEnd 34 = 58 := by decide
    have h3 : monthStep 30 = 58 := by decide
    have h4 : monthStep 58 = 89 := by decide
    norm_num +decide [resample_history, resampleRule, keyList, h1, h2, h3, h4,
      aggBucket, List.filterMap_cons, List.filter_cons, List.getLastD_cons]

/-- C9 witness: the general weekly equivalence applied to the concrete
ten-bar series. -/
theorem resampling_correctness_witness :
    resample_history exWeek10 "weekly" = weeklyGroupsSpec exWeek10 :=
  (resampling_correctness.1 exWeek10 (by norm_num [exWeek10, List.chain'_cons])).2

end SPMA
